import Mathlib

/-!
Shallow embedding of the flipedit timeline/pipeline engine (Rust sources under
`src/rust/src`), together with proofs settling the specification claims about
overlap resolution, clip mutation, graph building, frame conversion, playback
state recovery and position caching.

Times are milliseconds modelled as `Nat` (Rust `u64`); signed clip fields
(`i32` in `common/types.rs`) are modelled as `Int` with explicit wrap-around
casts where the source performs an `as u64` cast.
-/

namespace FlipEdit

/-- Rust `as u64` cast of a signed integer value: two's-complement reduction
modulo `2 ^ 64` (negative `i32`/`i64` values sign-extend and reinterpret). -/
def toU64 (x : Int) : Nat := (x.emod (2 ^ 64)).toNat

/-! ## Overlap model (`GESTimelineWrapper::find_overlapping_clips`, ges/mod.rs) -/

/-- A clip as held by a GES layer: registry id, start on the track and
duration, all in milliseconds (`clip.start().mseconds()` /
`clip.duration().mseconds()` in the source). -/
structure LClip where
  id : Int
  start_ms : Nat
  duration_ms : Nat
  deriving Repr, DecidableEq

/-- End of the clip's window on the track: `clip_start + duration` as computed
at ges/mod.rs:356. -/
def LClip.end_ms (c : LClip) : Nat := c.start_ms + c.duration_ms

/-- The corrective action attached to an overlap entry
(`GESOverlapAction` in ges/mod.rs). -/
inductive OverlapAction where
  | remove : OverlapAction
  | trimStart (at_ms : Nat) : OverlapAction
  | trimEnd (at_ms : Nat) : OverlapAction
  | split (at_ms : Nat) : OverlapAction
  deriving Repr, DecidableEq

/-- One overlap report (`GESOverlapInfo` in ges/mod.rs). -/
structure OverlapInfo where
  clip_id : Int
  start_time_ms : Nat
  end_time_ms : Nat
  overlap_start_ms : Nat
  overlap_end_ms : Nat
  action : OverlapAction
  deriving Repr, DecidableEq

/-- Classification of an overlapping clip against the candidate window
`[start_ms, end_ms)`, translated from the if/else chain at
ges/mod.rs:364-372 (first match wins). -/
def classifyOverlap (clip_start clip_end start_ms end_ms : Nat) : OverlapAction :=
  if clip_start ≥ start_ms ∧ clip_end ≤ end_ms then .remove
  else if clip_start < start_ms ∧ clip_end > start_ms then .trimEnd start_ms
  else if clip_start < end_ms ∧ clip_end > end_ms then .trimStart end_ms
  else .split start_ms

/-- The overlap entry pushed for one overlapping clip (ges/mod.rs:374-381). -/
def overlapEntry (start_ms end_ms : Nat) (c : LClip) : OverlapInfo :=
  { clip_id := c.id
    start_time_ms := c.start_ms
    end_time_ms := c.end_ms
    overlap_start_ms := max c.start_ms start_ms
    overlap_end_ms := min c.end_ms end_ms
    action := classifyOverlap c.start_ms c.end_ms start_ms end_ms }

/-- Scan of one layer's clip list (the loop body of `find_overlapping_clips`
at ges/mod.rs:344-384): skip the excluded clip, keep exactly the clips with
`clip_start < end_time_ms && clip_end > start_time_ms`. -/
def overlapsInLayer (clips : List LClip) (start_ms end_ms : Nat)
    (exclude : Option Int) : List OverlapInfo :=
  clips.filterMap fun c =>
    if exclude = some c.id then none
    else if c.start_ms < end_ms ∧ c.end_ms > start_ms then
      some (overlapEntry start_ms end_ms c)
    else none

/-- The wrapper's layers map, `HashMap<i32, ges::Layer>` with each layer's
clip list, modelled as an association list. -/
abbrev Layers := List (Int × List LClip)

/-- Model of `GESTimelineWrapper::find_overlapping_clips` (ges/mod.rs:332-388): if no
layer exists for `track_id` the accumulator stays empty; the function's only
exit is `Ok(overlaps)`, so it is modelled as total. -/
def findOverlappingClips (layers : Layers) (track_id : Int)
    (start_ms end_ms : Nat) (exclude : Option Int) : List OverlapInfo :=
  match List.lookup track_id layers with
  | none => []
  | some clips => overlapsInLayer clips start_ms end_ms exclude

/-- The `Result` wrapper around the same function: the Rust body has no error
return, every path ends in `Ok`. -/
def findOverlappingClipsRes (layers : Layers) (track_id : Int)
    (start_ms end_ms : Nat) (exclude : Option Int) :
    Except String (List OverlapInfo) :=
  .ok (findOverlappingClips layers track_id start_ms end_ms exclude)

/-! ## Wrapper state and clip mutation (`GESTimelineWrapper`, ges/mod.rs) -/

/-- Clip description crossing the bridge (`TimelineClip` in common/types.rs;
all timing fields are `i32` there). The four `preview_*` `f64` fields are
omitted: none of the modelled operations reads them. -/
structure TimelineClip where
  id : Option Int
  track_id : Int
  source_path : String
  start_time_on_track_ms : Int
  end_time_on_track_ms : Int
  start_time_in_source_ms : Int
  end_time_in_source_ms : Int
  deriving Repr, DecidableEq

/-- The mutable state of one GES clip object that the modelled operations
touch: the layer it sits on (identified by the layer priority, which
`get_or_create_layer` sets to the track id), `start`, `duration` and
`inpoint`, in milliseconds. -/
structure WClip where
  track_id : Int
  start_ms : Nat
  duration_ms : Nat
  inpoint_ms : Nat
  deriving Repr, DecidableEq

/-- State of a `GESTimelineWrapper`: the set of track ids that own a layer
(`layers: HashMap<i32, ges::Layer>`), the clip registry
(`clips: HashMap<i32, ges::Clip>`) and the id allocator `next_clip_id`.
Registered clips carry their layer membership in `WClip.track_id`, mirroring
the wrapper's invariant that each registered clip was added to the layer of
its track. -/
structure Wrapper where
  layers : List Int
  clips : List (Int × WClip)
  next_clip_id : Int
  deriving Repr, DecidableEq

/-- Outcomes of the external GStreamer/GES calls the wrapper makes; each
fallible native call is modelled by an oracle so that both its success and
failure paths in the Rust code are covered. -/
structure GstEnv where
  fileExists : String → Bool
  canonicalizeOk : String → Bool
  uriClipOk : String → Bool
  addLayerOk : Bool
  layerAddOk : Bool

/-- The `anyhow` error cases of the modelled wrapper operations, one
constructor per distinct `anyhow!` site. -/
inductive GesError where
  | fileNotFound
  | canonicalizeFailed
  | uriClipFailed
  | addLayerFailed
  | layerAddFailed
  | clipNotFound
  | noLayer
  | commitFailed
  | testClipFailed
  deriving Repr, DecidableEq

/-- Placement result (`GESClipPlacement` in ges/mod.rs). -/
structure GESClipPlacement where
  clip_id : Option Int
  track_id : Int
  start_time_ms : Nat
  end_time_ms : Nat
  start_time_in_source_ms : Nat
  end_time_in_source_ms : Nat
  overlapping_clips : List OverlapInfo
  success : Bool
  deriving Repr, DecidableEq

/-- Clips of the layer for `track_id`, as `layer.clips()` returns them:
under the wrapper invariant these are exactly the registered clips whose
layer is that track. -/
def Wrapper.layerClips (w : Wrapper) (track_id : Int) : List LClip :=
  (w.clips.filter fun p => p.2.track_id = track_id).map fun p =>
    { id := p.1, start_ms := p.2.start_ms, duration_ms := p.2.duration_ms }

/-- Query `find_overlapping_clips` against the wrapper state. -/
def Wrapper.findOverlapping (w : Wrapper) (track_id : Int) (s e : Nat)
    (ex : Option Int) : List OverlapInfo :=
  if track_id ∈ w.layers then overlapsInLayer (w.layerClips track_id) s e ex
  else []

/-- Replace the value stored under key `k` (pointer-level mutation of the
registered clip object). -/
def updateAssoc (l : List (Int × WClip)) (k : Int) (v : WClip) :
    List (Int × WClip) :=
  l.map fun p => if p.1 = k then (k, v) else p

/-- Model of `GESTimelineWrapper::move_clip` (ges/mod.rs:204-261): remove the clip
from its current layer, get or create the target layer, set the new start
(duration and inpoint untouched) and re-add. `layer.remove_clip` is modelled
as succeeding, since every registered clip is a member of its layer. -/
def moveClip (env : GstEnv) (w : Wrapper) (clip_id new_track_id : Int)
    (new_start_time_ms : Nat) : Wrapper × Except GesError GESClipPlacement :=
  match List.lookup clip_id w.clips with
  | none => (w, .error .clipNotFound)
  | some clip =>
    if clip.track_id ∈ w.layers then
      if new_track_id ∈ w.layers ∨ env.addLayerOk then
        let w1 : Wrapper :=
          if new_track_id ∈ w.layers then w
          else { w with layers := w.layers ++ [new_track_id] }
        let clip' : WClip :=
          { clip with track_id := new_track_id, start_ms := new_start_time_ms }
        let w2 : Wrapper := { w1 with clips := updateAssoc w1.clips clip_id clip' }
        if env.layerAddOk then
          let end_time_ms := new_start_time_ms + clip.duration_ms
          (w2, .ok
            { clip_id := some clip_id
              track_id := new_track_id
              start_time_ms := new_start_time_ms
              end_time_ms := end_time_ms
              start_time_in_source_ms := clip.inpoint_ms
              end_time_in_source_ms := clip.inpoint_ms + clip.duration_ms
              overlapping_clips := w2.findOverlapping new_track_id
                new_start_time_ms end_time_ms (some clip_id)
              success := true })
        else (w2, .error .layerAddFailed)
      else (w, .error .addLayerFailed)
    else (w, .error .noLayer)

/-- The forward-shift loop of `ges_ripple_edit` (timeline_bridge.rs:270-274):
move each collected `(clip id, original start)` pair to
`original start + delta` on the same track, stopping at the first error. -/
def moveAll (env : GstEnv) (track_id : Int) (delta : Nat) :
    Wrapper → List (Int × Nat) →
    Wrapper × Except GesError (List GESClipPlacement)
  | w, [] => (w, .ok [])
  | w, (i, s) :: rest =>
    match moveClip env w i track_id (s + delta) with
    | (w1, .error e) => (w1, .error e)
    | (w1, .ok r) =>
      match moveAll env track_id delta w1 rest with
      | (w2, .error e) => (w2, .error e)
      | (w2, .ok rs) => (w2, .ok (r :: rs))

/-- The backward-shift loop of `ges_ripple_edit` (timeline_bridge.rs:301-305):
every collected clip is moved to the one fixed position `new_end`. -/
def moveAllTo (env : GstEnv) (track_id : Int) (target : Nat) :
    Wrapper → List Int →
    Wrapper × Except GesError (List GESClipPlacement)
  | w, [] => (w, .ok [])
  | w, i :: rest =>
    match moveClip env w i track_id target with
    | (w1, .error e) => (w1, .error e)
    | (w1, .ok r) =>
      match moveAllTo env track_id target w1 rest with
      | (w2, .error e) => (w2, .error e)
      | (w2, .ok rs) => (w2, .ok (r :: rs))

/-- Model of `ges_ripple_edit` (timeline_bridge.rs:214-311): move the primary clip,
then shift the collected same-track clips — for a forward move (`delta > 0`)
those whose original start is at or after the moved clip's original end,
each by `delta`; for a backward move those overlapping the new window, each
to `new_end`. The collection happens before any of the shifts, so all
filters read original positions. -/
def rippleEdit (env : GstEnv) (w : Wrapper) (clip_id : Int)
    (new_start_time_ms : Nat) :
    Wrapper × Except GesError (List GESClipPlacement) :=
  match List.lookup clip_id w.clips with
  | none => (w, .error .clipNotFound)
  | some clip =>
    let delta : Int := (new_start_time_ms : Int) - (clip.start_ms : Int)
    if delta = 0 then (w, .ok [])
    else if clip.track_id ∈ w.layers then
      let track_id := clip.track_id
      match moveClip env w clip_id track_id new_start_time_ms with
      | (w1, .error e) => (w1, .error e)
      | (w1, .ok r1) =>
        if 0 < delta then
          let original_end := clip.start_ms + clip.duration_ms
          let pairs := (w1.clips.filter fun p =>
              p.1 ≠ clip_id ∧ p.2.track_id = track_id ∧
                original_end ≤ p.2.start_ms).map fun p => (p.1, p.2.start_ms)
          match moveAll env track_id delta.toNat w1 pairs with
          | (w2, .error e) => (w2, .error e)
          | (w2, .ok rs) => (w2, .ok (r1 :: rs))
        else
          let new_end := new_start_time_ms + clip.duration_ms
          let ids := (w1.clips.filter fun p =>
              p.1 ≠ clip_id ∧ p.2.track_id = track_id ∧
                p.2.start_ms < new_end ∧
                new_start_time_ms < p.2.start_ms + p.2.duration_ms).map Prod.fst
          match moveAllTo env track_id new_end w1 ids with
          | (w2, .error e) => (w2, .error e)
          | (w2, .ok rs) => (w2, .ok (r1 :: rs))
    else (w, .error .noLayer)

/-- Model of `GESTimelineWrapper::get_duration_ms` (ges/mod.rs:432-444): running
maximum of `start + duration` over every clip of every layer, starting from
`0u64`; no minimum is applied. -/
def getDurationMs (layers : Layers) : Nat :=
  layers.foldl (fun acc p => p.2.foldl (fun m c => max m c.end_ms) acc) 0

/-! ## Graph building (`GESTimelineManager`, video/ges_timeline.rs) -/

/-- One Flutter track of the timeline data (`TrackData`; the non-clip fields
are not read by the builder). -/
structure TrackData where
  clips : List TimelineClip
  deriving Repr, DecidableEq

/-- Timeline data handed to the builder (`TimelineData`). -/
structure TimelineData where
  tracks : List TrackData
  deriving Repr, DecidableEq

/-- External outcomes for the builder: filesystem existence; per clip, the
chained fallible GES calls of `add_clip_to_layer`
(`UriClipAsset::request_sync`, `extract`, downcast, `layer.add_clip`); the
final `timeline.commit()`; and the two fallible GES calls inside
`create_test_timeline` — `TestClip::for_nick("black")` returning `Some` and
`layer.add_clip` on the test clip. -/
structure BuildEnv where
  fileExists : String → Bool
  clipLoadOk : TimelineClip → Bool
  commitOk : Bool
  testClipOk : Bool
  testLayerAddOk : Bool

/-- Whether `add_clip_to_layer` (video/ges_timeline.rs:179-256) succeeds for
one clip: the file must exist, the track window must be non-degenerate
(`end <= start` is rejected at lines 201-204), the URI must be longer than
the bare scheme, and the external GES calls must succeed. -/
def clipLoads (env : BuildEnv) (clip : TimelineClip) : Bool :=
  env.fileExists clip.source_path &&
  decide (clip.start_time_on_track_ms < clip.end_time_on_track_ms) &&
  decide (7 < ("file://" ++ clip.source_path).length) &&
  env.clipLoadOk clip

/-- Result of building: either the synthetic black fallback timeline or a
timeline holding the successfully loaded clips. -/
inductive BuiltTimeline where
  | testTimeline (duration_ms : Nat)
  | fromData (clips : List TimelineClip) (duration_ms : Nat)
  deriving Repr, DecidableEq

/-- All clips across all tracks, in track order (video/ges_timeline.rs:93). -/
def TimelineData.allClips (td : TimelineData) : List TimelineClip :=
  (td.tracks.map TrackData.clips).flatten

/-- Model of `GESTimelineManager::create_test_timeline`
(video/ges_timeline.rs:28-68): `TestClip::for_nick("black")` may return
`None` (surfaced via `ok_or_else` at lines 50-51) and `layer.add_clip` may
fail (the `?` at line 59); otherwise the timeline holds a single 10-second
black test clip and the stored duration is 10000ms. -/
def createTestTimeline (env : BuildEnv) : Except GesError BuiltTimeline :=
  if env.testClipOk then
    if env.testLayerAddOk then .ok (.testTimeline 10000)
    else .error .layerAddFailed
  else .error .testClipFailed

/-- Model of `GESTimelineManager::create_timeline_from_data`
(video/ges_timeline.rs:71-176): fall back to the test timeline when there
are no clips at all or when no clip loads; otherwise keep exactly the clips
that load (failed ones are skipped with a warning) and store
`max(max end time, 1000)` as the duration. -/
def createTimelineFromData (env : BuildEnv) (td : TimelineData) :
    Except GesError BuiltTimeline :=
  let all_clips := td.allClips
  if all_clips.isEmpty then createTestTimeline env
  else
    let max_end := ((all_clips.map fun c => toU64 c.end_time_on_track_ms).max?).getD 10000
    let duration_ms := max max_end 1000
    let added := all_clips.filter (clipLoads env)
    if added.length = 0 then createTestTimeline env
    else if env.commitOk then .ok (.fromData added duration_ms)
    else .error .commitFailed

/-! ## Pipeline state recovery (`GESPipelineManager::check_and_recover_state`,
video/ges_pipeline.rs:338-381) -/

/-- GStreamer element states relevant to the recovery logic. -/
inductive GstState where
  | null
  | ready
  | paused
  | playing
  deriving Repr, DecidableEq

/-- Current and pending state of the live pipeline as
`pipeline.current_state()` / `pipeline.pending_state()` report them. -/
structure PipeState where
  current : GstState
  pending : GstState
  deriving Repr, DecidableEq

/-- The two `anyhow!` error sites of `check_and_recover_state`:
`recoveryFailed` for "Pipeline state recovery failed" (ges_pipeline.rs:367)
and `pipelineDied` for "Pipeline is in NULL state" (ges_pipeline.rs:376). -/
inductive RecoverError where
  | recoveryFailed
  | pipelineDied
  deriving Repr, DecidableEq

/-- Observable outcome of one `check_and_recover_state` call: the returned
`Result`, the controller's `is_playing` flag afterwards, and how many
`set_state(Playing)` recovery attempts were made during the call. -/
structure RecoverResult where
  result : Except RecoverError Unit
  is_playing : Bool
  attempts : Nat

/-- Model of `check_and_recover_state`, with the outcome of the single possible
`set_state(Playing)` call supplied as `setPlayingOk`. The `current_state`
compared against `Null` at ges_pipeline.rs:373 is the value captured at the
top of the call, before any recovery attempt. -/
def checkAndRecoverState (pipeline : Option PipeState) (is_playing : Bool)
    (setPlayingOk : Bool) : RecoverResult :=
  match pipeline with
  | none => { result := .ok (), is_playing := is_playing, attempts := 0 }
  | some st =>
    if is_playing ∧ st.current ≠ .playing ∧ st.pending ≠ .playing then
      if setPlayingOk then
        if st.current = .null ∧ is_playing then
          { result := .error .pipelineDied, is_playing := false, attempts := 1 }
        else { result := .ok (), is_playing := is_playing, attempts := 1 }
      else { result := .error .recoveryFailed, is_playing := false, attempts := 1 }
    else
      if st.current = .null ∧ is_playing then
        { result := .error .pipelineDied, is_playing := false, attempts := 0 }
      else { result := .ok (), is_playing := is_playing, attempts := 0 }

/-! ## Player position cache (`GESTimelinePlayer`,
video/ges_timeline_player.rs) -/

/-- The player state the position contract depends on: whether a pipeline is
loaded, the cached `current_position_ms`, and the `is_playing` flag. -/
structure Player where
  hasPipeline : Bool
  current_position_ms : Nat
  is_playing : Bool
  deriving Repr, DecidableEq

/-- Error cases of the modelled player operations. -/
inductive PlayerError where
  | notLoaded
  | seekFailed
  | stateChangeFailed
  deriving Repr, DecidableEq

/-- Model of `GESTimelinePlayer::seek` (ges_timeline_player.rs:428-447): fail if no
pipeline is loaded or the flushing `seek_simple` is rejected (`seekOk`);
on success cache the requested position. -/
def Player.seek (seekOk : Bool) (p : Player) (position_ms : Nat) :
    Player × Except PlayerError Unit :=
  if ¬ p.hasPipeline then (p, .error .notLoaded)
  else if ¬ seekOk then (p, .error .seekFailed)
  else ({ p with current_position_ms := position_ms }, .ok ())

/-- Model of `GESTimelinePlayer::get_current_position_ms`
(ges_timeline_player.rs:473-475): a plain read of the cache. -/
def Player.getCurrentPositionMs (p : Player) : Nat := p.current_position_ms

/-- Model of `GESTimelinePlayer::play` (ges_timeline_player.rs:360-387): requests
Playing; any `Ok` state-change outcome sets `is_playing`, the position
cache is untouched. -/
def Player.play (setOk : Bool) (p : Player) : Player × Except PlayerError Unit :=
  if ¬ p.hasPipeline then (p, .error .notLoaded)
  else if setOk then ({ p with is_playing := true }, .ok ())
  else (p, .error .stateChangeFailed)

/-- Model of `GESTimelinePlayer::pause` (ges_timeline_player.rs:389-399): requests
Paused and clears `is_playing`; the position cache is untouched. -/
def Player.pause (setOk : Bool) (p : Player) : Player × Except PlayerError Unit :=
  if ¬ p.hasPipeline then (p, .error .notLoaded)
  else if setOk then ({ p with is_playing := false }, .ok ())
  else (p, .error .stateChangeFailed)

/-- Model of `GESTimelinePlayer::update_position` (ges_timeline_player.rs:461-469):
overwrite the cache with the pipeline's queried position when one is
reported. -/
def Player.updatePosition (p : Player) (queried : Option Nat) : Player :=
  if p.hasPipeline then
    match queried with
    | some ms => { p with current_position_ms := ms }
    | none => p
  else p

/-- Model of `GESTimelinePlayer::stop_pipeline` (ges_timeline_player.rs:401-426),
success path: reset the flag and the cache, drop the pipeline. -/
def Player.stopPipeline (p : Player) : Player :=
  if p.hasPipeline then
    { p with is_playing := false, current_position_ms := 0, hasPipeline := false }
  else p

/-- An environment in which every external GStreamer/GES call succeeds and
every referenced file exists: the ordinary operating regime of the wrapper. -/
def allOkEnv : GstEnv :=
  { fileExists := fun _ => true
    canonicalizeOk := fun _ => true
    uriClipOk := fun _ => true
    addLayerOk := true
    layerAddOk := true }

instance {ε α : Type} [DecidableEq ε] [DecidableEq α] : DecidableEq (Except ε α)
  | .ok a, .ok b =>
    if h : a = b then isTrue (by rw [h])
    else isFalse (fun hc => h (by cases hc; rfl))
  | .error x, .error y =>
    if h : x = y then isTrue (by rw [h])
    else isFalse (fun hc => h (by cases hc; rfl))
  | .ok _, .error _ => isFalse (fun hc => by cases hc)
  | .error _, .ok _ => isFalse (fun hc => by cases hc)

/-! ## Overlap query: supporting lemmas -/

@[simp]
theorem overlapEntry_clip_id (s e : Nat) (c : LClip) :
    (overlapEntry s e c).clip_id = c.id := rfl

/-- No entry with id `i` is produced when every clip carrying that id is
excluded or disjoint from the candidate window. -/
theorem overlaps_filter_none (clips : List LClip) (s e : Nat) (ex : Option Int)
    (i : Int)
    (h : ∀ c ∈ clips, c.id = i → ex = some i ∨ ¬ (c.start_ms < e ∧ s < c.end_ms)) :
    (overlapsInLayer clips s e ex).filter (fun o => o.clip_id = i) = [] := by
  induction clips with
  | nil => rfl
  | cons d ds ih =>
    have ih' := ih fun c hc => h c (List.mem_cons_of_mem _ hc)
    simp only [overlapsInLayer, List.filterMap_cons] at ih' ⊢
    by_cases h1 : ex = some d.id
    · rw [if_pos h1]
      exact ih'
    · rw [if_neg h1]
      by_cases h2 : d.start_ms < e ∧ d.end_ms > s
      · rw [if_pos h2, List.filter_cons]
        have hdi : d.id ≠ i := by
          intro hEq
          rcases h d (List.mem_cons_self _ _) hEq with h3 | h3
          · exact h1 (by rw [h3, hEq])
          · exact h3 ⟨h2.1, h2.2⟩
        rw [if_neg (by simpa using hdi)]
        exact ih'
      · rw [if_neg h2]
        exact ih'

/-- Exactly one entry is produced for an overlapping, non-excluded clip
(ids being distinct on the layer). -/
theorem overlaps_filter_single (clips : List LClip) (s e : Nat)
    (ex : Option Int) (c : LClip) (hnd : (clips.map LClip.id).Nodup)
    (hc : c ∈ clips) (hex : ex ≠ some c.id) (h1 : c.start_ms < e)
    (h2 : s < c.end_ms) :
    (overlapsInLayer clips s e ex).filter (fun o => o.clip_id = c.id) =
      [overlapEntry s e c] := by
  induction clips with
  | nil => cases hc
  | cons d ds ih =>
    simp only [overlapsInLayer, List.filterMap_cons] at ih ⊢
    rcases List.mem_cons.1 hc with rfl | hmem
    · rw [if_neg (fun hEq => hex hEq), if_pos ⟨h1, h2⟩, List.filter_cons,
        if_pos (by simp)]
      have htail := overlaps_filter_none ds s e ex c.id fun c' hc' hEq =>
        absurd (hEq ▸ List.mem_map_of_mem LClip.id hc')
          (List.nodup_cons.1 hnd).1
      simp only [overlapsInLayer] at htail
      rw [htail]
    · have hdc : d.id ≠ c.id := fun hEq =>
        (List.nodup_cons.1 hnd).1 (hEq ▸ List.mem_map_of_mem LClip.id hmem)
      have ih' := ih (List.nodup_cons.1 hnd).2 hmem
      by_cases hx : ex = some d.id
      · rw [if_pos hx]
        exact ih'
      · rw [if_neg hx]
        by_cases hov : d.start_ms < e ∧ d.end_ms > s
        · rw [if_pos hov, List.filter_cons, if_neg (by simpa using hdc)]
          exact ih'
        · rw [if_neg hov]
          exact ih'

/-- C1: for every timeline, track, candidate window `[start_ms, end_ms)` and
optional excluded clip, `find_overlapping_clips` returns exactly one entry
per clip on that track (excluding the excluded one) whose window satisfies
`clip_start < end_ms && clip_end > start_ms`, and no entry for any clip with
a disjoint window; the entry's action follows the source's first-match
precedence — fully contained gives `Remove`, starting before and extending
into the candidate gives `TrimEnd start_ms`, starting inside and extending
past gives `TrimStart end_ms`, otherwise `Split start_ms`. -/
theorem find_overlapping_clips_spec
    (layers : Layers) (track_id : Int) (start_ms end_ms : Nat)
    (exclude : Option Int) (clips : List LClip)
    (hl : List.lookup track_id layers = some clips)
    (hnd : (clips.map LClip.id).Nodup) :
    ∀ c ∈ clips,
      ((exclude = some c.id ∨ ¬ (c.start_ms < end_ms ∧ c.end_ms > start_ms)) →
        (findOverlappingClips layers track_id start_ms end_ms exclude).filter
          (fun o => o.clip_id = c.id) = []) ∧
      (exclude ≠ some c.id → c.start_ms < end_ms → c.end_ms > start_ms →
        (findOverlappingClips layers track_id start_ms end_ms exclude).filter
          (fun o => o.clip_id = c.id) =
          [{ clip_id := c.id
             start_time_ms := c.start_ms
             end_time_ms := c.end_ms
             overlap_start_ms := max c.start_ms start_ms
             overlap_end_ms := min c.end_ms end_ms
             action :=
               if c.start_ms ≥ start_ms ∧ c.end_ms ≤ end_ms then .remove
               else if c.start_ms < start_ms ∧ c.end_ms > start_ms then
                 .trimEnd start_ms
               else if c.start_ms < end_ms ∧ c.end_ms > end_ms then
                 .trimStart end_ms
               else .split start_ms }]) := by
  intro c hc
  unfold findOverlappingClips
  rw [hl]
  constructor
  · intro hz
    apply overlaps_filter_none
    intro c' hc' hEq
    have hcc : c' = c := List.inj_on_of_nodup_map hnd hc' hc hEq
    subst hcc
    exact hz
  · intro hex h1 h2
    exact overlaps_filter_single clips start_ms end_ms exclude c hnd hc hex h1 h2

/-- Instantiation of the C1 theorem on the spec's own scenario: clip
`A = [0, 3000)` against candidate `[2000, 5000)` (excluded id 2) gives
exactly one entry for `A`, classified `TrimEnd 2000`. -/
theorem find_overlapping_clips_spec_witness :
    (findOverlappingClips [(1, [⟨1, 0, 3000⟩])] 1 2000 5000 (some 2)).filter
        (fun o => o.clip_id = (1 : Int)) =
      [{ clip_id := 1, start_time_ms := 0, end_time_ms := 3000,
         overlap_start_ms := 2000, overlap_end_ms := 3000,
         action := .trimEnd 2000 }] := by
  have h := (find_overlapping_clips_spec [(1, [⟨1, 0, 3000⟩])] 1 2000 5000
      (some 2) [⟨1, 0, 3000⟩] rfl (by decide) ⟨1, 0, 3000⟩ (by decide)).2
      (by decide) (by decide) (by decide)
  exact h.trans (by decide)

/-- C10: querying overlaps for a track id for which no layer has ever been
created returns success with an empty list, never an error (the `layers`
map lookup simply misses and the accumulator stays empty). -/
theorem find_overlapping_clips_unknown_track (layers : Layers)
    (track_id : Int) (s e : Nat) (ex : Option Int)
    (h : List.lookup track_id layers = none) :
    findOverlappingClipsRes layers track_id s e ex = .ok [] := by
  unfold findOverlappingClipsRes findOverlappingClips
  rw [h]

/-- Instantiation of the C10 theorem: a timeline whose only layer is track 1,
queried for track 2. -/
theorem find_overlapping_clips_unknown_track_witness :
    findOverlappingClipsRes [(1, [⟨1, 0, 5000⟩])] 2 0 10000 none = .ok [] :=
  find_overlapping_clips_unknown_track _ _ _ _ _ rfl

/-! ## add_clip and resize_clip validation -/

@[simp]
theorem except_isOk_ok {ε α : Type} (a : α) :
    (Except.ok a : Except ε α).isOk = true := rfl

@[simp]
theorem except_isOk_error {ε α : Type} (e : ε) :
    (Except.error e : Except ε α).isOk = false := rfl

/-- The fallback can never produce a `fromData` result: it either errors or
returns the synthetic test timeline. -/
theorem createTestTimeline_ne_fromData (env : BuildEnv)
    (clips : List TimelineClip) (d : Nat) :
    createTestTimeline env ≠ .ok (.fromData clips d) := by
  unfold createTestTimeline
  rcases env with ⟨f, cl, co, tc, tl⟩
  cases tc <;> cases tl <;> simp

/-- C2 counterexample: with zero clips and `TestClip::for_nick` failing, the
builder returns an error, not the synthetic black timeline — the fallback
path itself contains fallible GES calls. -/
theorem create_timeline_empty_error_cex :
    createTimelineFromData
        ⟨fun _ => true, fun _ => true, true, false, true⟩ ⟨[]⟩ =
      .error .testClipFailed := by
  decide

/-- C2 amended: a clip whose asset cannot be opened or discovered is dropped
with a warning and building continues with the rest; with zero clips, or
when every clip fails to load, the builder calls `create_test_timeline`
instead of reporting that condition as an error — the fallback returns the
synthetic 10,000ms black timeline exactly when its own GES calls (test-clip
creation and layer add) succeed, and propagates their error otherwise. -/
theorem create_timeline_resilience (env : BuildEnv) (td : TimelineData) :
    (td.allClips = [] →
      createTimelineFromData env td = createTestTimeline env) ∧
    (td.allClips.filter (clipLoads env) = [] →
      createTimelineFromData env td = createTestTimeline env) ∧
    (env.testClipOk = true → env.testLayerAddOk = true →
      createTestTimeline env = .ok (.testTimeline 10000)) ∧
    (env.commitOk = true → td.allClips.filter (clipLoads env) ≠ [] →
      createTimelineFromData env td =
        .ok (.fromData (td.allClips.filter (clipLoads env))
          (max (((td.allClips.map fun c =>
            toU64 c.end_time_on_track_ms).max?).getD 10000) 1000))) := by
  refine ⟨?_, ?_, ?_, ?_⟩
  · intro h
    unfold createTimelineFromData
    simp [h]
  · intro h
    unfold createTimelineFromData
    by_cases he : td.allClips.isEmpty
    · simp [he]
    · simp [he, h]
  · intro h1 h2
    unfold createTestTimeline
    rw [h1, h2]
    rfl
  · intro hcommit hne
    unfold createTimelineFromData
    have hne' : td.allClips ≠ [] := by
      intro h0
      exact hne (by rw [h0]; rfl)
    have he : td.allClips.isEmpty = false := by
      simpa [List.isEmpty_iff] using hne'
    have hlen : ¬ (td.allClips.filter (clipLoads env)).length = 0 := by
      simpa [List.length_eq_zero] using hne
    simp [he, hlen, hcommit]

/-- Instantiation of the C2 theorem: with the fallback's GES calls
succeeding, an empty timeline builds the 10,000ms black test timeline; and
of two clips, the one whose file is missing is dropped while the other is
kept, the duration being the surviving maximum end time. -/
theorem create_timeline_resilience_witness :
    createTimelineFromData
        ⟨fun s => s == "ok.mp4", fun _ => true, true, true, true⟩ ⟨[]⟩ =
      .ok (.testTimeline 10000) ∧
    createTimelineFromData
        ⟨fun s => s == "ok.mp4", fun _ => true, true, true, true⟩
        ⟨[⟨[⟨none, 0, "ok.mp4", 0, 5000, 0, 5000⟩,
            ⟨none, 0, "missing.mp4", 0, 7000, 0, 7000⟩]⟩]⟩ =
      .ok (.fromData [⟨none, 0, "ok.mp4", 0, 5000, 0, 5000⟩] 7000) := by
  constructor
  · exact ((create_timeline_resilience
        ⟨fun s => s == "ok.mp4", fun _ => true, true, true, true⟩
        ⟨[]⟩).1 rfl).trans
      ((create_timeline_resilience
        ⟨fun s => s == "ok.mp4", fun _ => true, true, true, true⟩
        ⟨[]⟩).2.2.1 rfl rfl)
  · exact ((create_timeline_resilience
        ⟨fun s => s == "ok.mp4", fun _ => true, true, true, true⟩
        ⟨[⟨[⟨none, 0, "ok.mp4", 0, 5000, 0, 5000⟩,
            ⟨none, 0, "missing.mp4", 0, 7000, 0, 7000⟩]⟩]⟩).2.2.2 rfl
      (by decide)).trans (by decide)

/-! ## Timeline duration -/

/-- C5 counterexample: on a timeline with zero clips,
`get_timeline_duration_ms` returns 0 — it is not floored at any fallback
minimum such as 1000ms. -/
theorem get_timeline_duration_empty_cex :
    getDurationMs [] = 0 ∧ ¬ 1000 ≤ getDurationMs [] := by
  decide

theorem foldl_max_le_acc (l : List LClip) (a : Nat) :
    a ≤ l.foldl (fun m c => max m c.end_ms) a := by
  induction l generalizing a with
  | nil => exact le_refl a
  | cons d ds ih => exact le_trans (le_max_left a d.end_ms) (ih _)

theorem foldl_max_le_of_mem (l : List LClip) (a : Nat) (c : LClip)
    (hc : c ∈ l) : c.end_ms ≤ l.foldl (fun m c => max m c.end_ms) a := by
  induction l generalizing a with
  | nil => cases hc
  | cons d ds ih =>
    rcases List.mem_cons.1 hc with rfl | hmem
    · exact le_trans (le_max_right a c.end_ms) (foldl_max_le_acc ds _)
    · exact ih _ hmem

theorem foldl_max_eq_acc_or_mem (l : List LClip) (a : Nat) :
    l.foldl (fun m c => max m c.end_ms) a = a ∨
      ∃ c ∈ l, l.foldl (fun m c => max m c.end_ms) a = c.end_ms := by
  induction l generalizing a with
  | nil => exact Or.inl rfl
  | cons d ds ih =>
    rcases ih (max a d.end_ms) with h | ⟨c, hc, h⟩
    · rcases max_choice a d.end_ms with hm | hm
      · exact Or.inl (by rw [List.foldl_cons, h, hm])
      · exact Or.inr ⟨d, List.mem_cons_self _ _,
          by rw [List.foldl_cons, h, hm]⟩
    · exact Or.inr ⟨c, List.mem_cons_of_mem _ hc, by rw [List.foldl_cons, h]⟩

theorem layers_foldl_le_acc (ls : Layers) (a : Nat) :
    a ≤ ls.foldl (fun acc p => p.2.foldl (fun m c => max m c.end_ms) acc) a := by
  induction ls generalizing a with
  | nil => exact le_refl a
  | cons q qs ih => exact le_trans (foldl_max_le_acc q.2 a) (ih _)

theorem layers_foldl_le_of_mem (ls : Layers) (a : Nat) (q : Int × List LClip)
    (hq : q ∈ ls) (c : LClip) (hc : c ∈ q.2) :
    c.end_ms ≤
      ls.foldl (fun acc p => p.2.foldl (fun m c => max m c.end_ms) acc) a := by
  induction ls generalizing a with
  | nil => cases hq
  | cons r rs ih =>
    rcases List.mem_cons.1 hq with rfl | hmem
    · exact le_trans (foldl_max_le_of_mem q.2 a c hc) (layers_foldl_le_acc rs _)
    · exact ih _ hmem

theorem layers_foldl_eq_acc_or_mem (ls : Layers) (a : Nat) :
    ls.foldl (fun acc p => p.2.foldl (fun m c => max m c.end_ms) acc) a = a ∨
      ∃ q ∈ ls, ∃ c ∈ q.2,
        ls.foldl (fun acc p => p.2.foldl (fun m c => max m c.end_ms) acc) a =
          c.end_ms := by
  induction ls generalizing a with
  | nil => exact Or.inl rfl
  | cons r rs ih =>
    rcases ih (r.2.foldl (fun m c => max m c.end_ms) a) with h | ⟨q, hq, c, hc, h⟩
    · rcases foldl_max_eq_acc_or_mem r.2 a with h2 | ⟨c, hc, h2⟩
      · exact Or.inl (by rw [List.foldl_cons, h, h2])
      · exact Or.inr ⟨r, List.mem_cons_self _ _, c, hc,
          by rw [List.foldl_cons, h, h2]⟩
    · exact Or.inr ⟨q, List.mem_cons_of_mem _ hq, c, hc,
        by rw [List.foldl_cons, h]⟩

/-- C5 amended: `get_duration_ms` is exactly the maximum of
`clip.track_end_ms` over all clips of all layers, with no minimum floor —
it is 0 precisely when no clip attains a positive end time (in particular 0
on an empty timeline); the `max(_, 1000)` fallback floor exists only in the
duration `GESTimelineManager::create_timeline_from_data` stores for the
built pipeline. -/
theorem get_duration_ms_spec (layers : Layers) :
    (∀ p ∈ layers, ∀ c ∈ p.2, c.end_ms ≤ getDurationMs layers) ∧
    (getDurationMs layers = 0 ∨
      ∃ p ∈ layers, ∃ c ∈ p.2, getDurationMs layers = c.end_ms) ∧
    (∀ (env : BuildEnv) (td : TimelineData) (clips : List TimelineClip)
        (d : Nat),
      createTimelineFromData env td = .ok (.fromData clips d) → 1000 ≤ d) := by
  refine ⟨?_, ?_, ?_⟩
  · intro p hp c hc
    exact layers_foldl_le_of_mem layers 0 p hp c hc
  · exact layers_foldl_eq_acc_or_mem layers 0
  · intro env td clips d h
    unfold createTimelineFromData at h
    simp only [List.length_eq_zero] at h
    by_cases he : td.allClips.isEmpty = true
    · rw [if_pos he] at h
      exact absurd h (createTestTimeline_ne_fromData env clips d)
    · rw [if_neg he] at h
      by_cases hl : td.allClips.filter (clipLoads env) = []
      · rw [if_pos hl] at h
        exact absurd h (createTestTimeline_ne_fromData env clips d)
      · rw [if_neg hl] at h
        by_cases hcommit : env.commitOk = true
        · rw [if_pos hcommit, Except.ok.injEq] at h
          injection h with h1 h2
          subst h2
          exact le_max_right _ _
        · rw [if_neg hcommit] at h
          exact absurd h (by simp)

/-- Instantiation of the C5 theorem on a two-layer timeline whose maximum
clip end is 4500ms. -/
theorem get_duration_ms_spec_witness :
    (∀ p ∈ ([(0, [⟨1, 0, 3000⟩]), (1, [⟨2, 2500, 2000⟩])] : Layers),
      ∀ c ∈ p.2,
        c.end_ms ≤ getDurationMs [(0, [⟨1, 0, 3000⟩]), (1, [⟨2, 2500, 2000⟩])]) ∧
    (getDurationMs [(0, [⟨1, 0, 3000⟩]), (1, [⟨2, 2500, 2000⟩])] = 0 ∨
      ∃ p ∈ ([(0, [⟨1, 0, 3000⟩]), (1, [⟨2, 2500, 2000⟩])] : Layers),
        ∃ c ∈ p.2,
          getDurationMs [(0, [⟨1, 0, 3000⟩]), (1, [⟨2, 2500, 2000⟩])] =
            c.end_ms) :=
  ⟨(get_duration_ms_spec _).1, (get_duration_ms_spec _).2.1⟩

/-! ## Pipeline state recovery -/

/-- C7 counterexample: with the pipeline found in `Null` (pending `Null`)
while the controller believes it is playing, and the single recovery
`set_state(Playing)` attempt itself failing, the call returns the
state-recovery-failure error, not the `PipelineDied` (NULL-state) error the
claim requires for every such state. -/
theorem check_and_recover_null_cex :
    (checkAndRecoverState (some ⟨.null, .null⟩) true false).result =
      .error .recoveryFailed ∧
    (checkAndRecoverState (some ⟨.null, .null⟩) true false).result ≠
      .error .pipelineDied := by
  decide

/-- C7 amended: `check_and_recover_state` makes at most one automatic
`set_state(Playing)` recovery attempt per call, exactly when the controller
believes it is playing while neither the current nor the pending graph
state is `Playing`; whenever the current state is `Null` while believed
playing, the call returns an error and clears `is_playing` — the error is
`PipelineDied` unless a recovery was attempted and that attempt itself
failed, in which case it is the recovery-failure error. Without a pipeline
the call is a no-op. -/
theorem check_and_recover_spec (st : PipeState) (is_playing setOk : Bool) :
    (checkAndRecoverState (some st) is_playing setOk).attempts ≤ 1 ∧
    ((checkAndRecoverState (some st) is_playing setOk).attempts = 1 ↔
      (is_playing = true ∧ st.current ≠ .playing ∧ st.pending ≠ .playing)) ∧
    (st.current = .null → is_playing = true →
      (checkAndRecoverState (some st) is_playing setOk).is_playing = false ∧
      (checkAndRecoverState (some st) is_playing setOk).result =
        .error (if st.pending ≠ .playing ∧ setOk = false
          then .recoveryFailed else .pipelineDied)) ∧
    (checkAndRecoverState none is_playing setOk).result = .ok () ∧
    (checkAndRecoverState none is_playing setOk).is_playing = is_playing ∧
    (checkAndRecoverState none is_playing setOk).attempts = 0 := by
  rcases st with ⟨cur, pend⟩
  cases cur <;> cases pend <;> cases is_playing <;> cases setOk <;> decide

/-- Instantiation of the C7 theorem: current `Ready`, pending `Ready`,
believed playing, recovery succeeding — one attempt is made and the call
returns success. -/
theorem check_and_recover_spec_witness :
    (checkAndRecoverState (some ⟨.ready, .ready⟩) true true).attempts ≤ 1 ∧
    ((checkAndRecoverState (some ⟨.ready, .ready⟩) true true).attempts = 1 ↔
      (true = true ∧ (GstState.ready) ≠ .playing ∧ (GstState.ready) ≠ .playing)) ∧
    ((GstState.ready) = .null → true = true →
      (checkAndRecoverState (some ⟨.ready, .ready⟩) true true).is_playing = false ∧
      (checkAndRecoverState (some ⟨.ready, .ready⟩) true true).result =
        .error (if (GstState.ready) ≠ .playing ∧ true = false
          then .recoveryFailed else .pipelineDied)) ∧
    (checkAndRecoverState none true true).result = .ok () ∧
    (checkAndRecoverState none true true).is_playing = true ∧
    (checkAndRecoverState none true true).attempts = 0 :=
  check_and_recover_spec ⟨.ready, .ready⟩ true true

/-! ## Seek position caching -/

/-- C9: when `seek(p)` succeeds, an immediately following
`get_current_position_ms()` returns exactly `p` — the requested target is
cached — and the cache survives intervening `play`/`pause` calls (it only
changes on a later seek, position update, or stop). -/
theorem seek_caches_position (seekOk playOk pauseOk : Bool) (p : Player)
    (pos : Nat) (h : ((Player.seek seekOk p pos).2).isOk = true) :
    ((Player.seek seekOk p pos).1).getCurrentPositionMs = pos ∧
    ((Player.play playOk (Player.seek seekOk p pos).1).1).getCurrentPositionMs
      = pos ∧
    ((Player.pause pauseOk (Player.seek seekOk p pos).1).1).getCurrentPositionMs
      = pos := by
  rcases p with ⟨hasP, cur, playing⟩
  cases hasP
  · exact absurd h (by simp [Player.seek])
  · cases seekOk
    · exact absurd h (by simp [Player.seek])
    · cases playOk <;> cases pauseOk <;>
        simp [Player.seek, Player.play, Player.pause, Player.getCurrentPositionMs]

/-- Instantiation of the C9 theorem: a loaded paused player seeking to
2500ms reads back exactly 2500ms, also after a pause and a play request. -/
theorem seek_caches_position_witness :
    ((Player.seek true ⟨true, 0, false⟩ 2500).1).getCurrentPositionMs = 2500 ∧
    ((Player.play true (Player.seek true ⟨true, 0, false⟩ 2500).1).1).getCurrentPositionMs
      = 2500 ∧
    ((Player.pause true (Player.seek true ⟨true, 0, false⟩ 2500).1).1).getCurrentPositionMs
      = 2500 :=
  seek_caches_position true true true ⟨true, 0, false⟩ 2500 (by decide)

/-! ## Ripple edit: supporting lemmas -/

@[simp]
theorem updateAssoc_nil (k : Int) (v : WClip) : updateAssoc [] k v = [] := rfl

@[simp]
theorem updateAssoc_cons (a : Int) (b : WClip) (ps : List (Int × WClip))
    (k : Int) (v : WClip) :
    updateAssoc ((a, b) :: ps) k v =
      (if a = k then (k, v) else (a, b)) :: updateAssoc ps k v := rfl

theorem lookup_cons_eq (a : Int) (b : WClip) (ps : List (Int × WClip)) :
    List.lookup a ((a, b) :: ps) = some b := by
  simp [List.lookup_cons]

theorem lookup_cons_ne (j a : Int) (b : WClip) (ps : List (Int × WClip))
    (h : j ≠ a) : List.lookup j ((a, b) :: ps) = List.lookup j ps := by
  simp [List.lookup_cons, beq_eq_false_iff_ne.2 h]

theorem lookup_updateAssoc_self (l : List (Int × WClip)) (k : Int) (v : WClip) :
    List.lookup k (updateAssoc l k v) = (List.lookup k l).map fun _ => v := by
  induction l with
  | nil => rfl
  | cons p ps ih =>
    rcases p with ⟨a, b⟩
    rw [updateAssoc_cons]
    by_cases h : a = k
    · subst h
      rw [if_pos rfl, lookup_cons_eq, lookup_cons_eq]
      rfl
    · have hk : k ≠ a := fun hEq => h hEq.symm
      rw [if_neg h, lookup_cons_ne k a b _ hk, lookup_cons_ne k a b ps hk]
      exact ih

theorem lookup_updateAssoc_ne (l : List (Int × WClip)) (k : Int) (v : WClip)
    (j : Int) (h : j ≠ k) :
    List.lookup j (updateAssoc l k v) = List.lookup j l := by
  induction l with
  | nil => rfl
  | cons p ps ih =>
    rcases p with ⟨a, b⟩
    rw [updateAssoc_cons]
    by_cases ha : a = k
    · subst ha
      rw [if_pos rfl, lookup_cons_ne j a v _ h, lookup_cons_ne j a b ps h]
      exact ih
    · rw [if_neg ha]
      by_cases hj : j = a
      · subst hj
        rw [lookup_cons_eq, lookup_cons_eq]
      · rw [lookup_cons_ne j a b _ hj, lookup_cons_ne j a b ps hj]
        exact ih

theorem keys_updateAssoc (l : List (Int × WClip)) (k : Int) (v : WClip) :
    (updateAssoc l k v).map Prod.fst = l.map Prod.fst := by
  induction l with
  | nil => rfl
  | cons p ps ih =>
    rcases p with ⟨a, b⟩
    rw [updateAssoc_cons]
    by_cases h : a = k
    · subst h
      rw [if_pos rfl, List.map_cons, List.map_cons, ih]
    · rw [if_neg h, List.map_cons, List.map_cons, ih]

theorem lookup_of_mem_nodup (l : List (Int × WClip)) (i : Int) (c : WClip)
    (hnd : (l.map Prod.fst).Nodup) (h : (i, c) ∈ l) :
    List.lookup i l = some c := by
  induction l with
  | nil => cases h
  | cons p ps ih =>
    rcases List.mem_cons.1 h with rfl | hm
    · exact lookup_cons_eq i c ps
    · have hip : i ≠ p.1 := by
        intro hEq
        exact (List.nodup_cons.1 hnd).1
          (hEq ▸ (List.mem_map_of_mem Prod.fst hm : (i, c).1 ∈ ps.map Prod.fst))
      rcases p with ⟨a, b⟩
      rw [lookup_cons_ne i a b ps hip]
      exact ih (List.nodup_cons.1 hnd).2 hm

theorem mem_updateAssoc_ne (l : List (Int × WClip)) (k : Int) (v : WClip)
    (i : Int) (c : WClip) (h : i ≠ k) :
    ((i, c) ∈ updateAssoc l k v) ↔ (i, c) ∈ l := by
  induction l with
  | nil => exact Iff.rfl
  | cons p ps ih =>
    rcases p with ⟨a, b⟩
    rw [updateAssoc_cons]
    by_cases hp : a = k
    · rw [if_pos hp]
      simp only [List.mem_cons, ih]
      constructor
      · rintro (hEq | hm)
        · exact absurd (congrArg Prod.fst hEq) h
        · exact Or.inr hm
      · rintro (hEq | hm)
        · exact absurd ((congrArg Prod.fst hEq).trans hp) h
        · exact Or.inr hm
    · rw [if_neg hp]
      simp only [List.mem_cons, ih]

/-- A successful `move_clip` to an already-existing layer leaves the layer
set and the id allocator unchanged and rewrites only the moved clip's layer
and start (duration and inpoint preserved). -/
theorem moveClip_happy (env : GstEnv) (w : Wrapper) (cid tid : Int)
    (ns : Nat) (clip : WClip) (hla : env.layerAddOk = true)
    (h : List.lookup cid w.clips = some clip)
    (h1 : clip.track_id ∈ w.layers) (h2 : tid ∈ w.layers) :
    ∃ r, moveClip env w cid tid ns =
      (⟨w.layers, updateAssoc w.clips cid
          ⟨tid, ns, clip.duration_ms, clip.inpoint_ms⟩, w.next_clip_id⟩,
        .ok r) := by
  simp only [moveClip, h]
  rw [if_pos h1, if_pos (Or.inl h2), if_pos h2, if_pos hla]
  exact ⟨_, rfl⟩

/-- Characterization of the forward-shift loop of `ges_ripple_edit` under a
fully successful environment: every collected `(id, original start)` pair's
clip moves to `original start + delta` on the same track, every other
registry entry is untouched, and the loop reports success. -/
theorem moveAll_happy (env : GstEnv) (tid : Int) (delta : Nat)
    (hla : env.layerAddOk = true) :
    ∀ (pairs : List (Int × Nat)) (w : Wrapper),
      tid ∈ w.layers →
      (pairs.map Prod.fst).Nodup →
      (∀ p ∈ pairs, ∃ c, List.lookup p.1 w.clips = some c ∧
        c.track_id = tid ∧ c.start_ms = p.2) →
      ∃ w' rs, moveAll env tid delta w pairs = (w', .ok rs) ∧
        w'.layers = w.layers ∧
        (∀ j : Int, (∀ p ∈ pairs, p.1 ≠ j) →
          List.lookup j w'.clips = List.lookup j w.clips) ∧
        (∀ p ∈ pairs, ∀ c, List.lookup p.1 w.clips = some c →
          List.lookup p.1 w'.clips =
            some ⟨tid, p.2 + delta, c.duration_ms, c.inpoint_ms⟩) := by
  intro pairs
  induction pairs with
  | nil =>
    intro w _ _ _
    exact ⟨w, [], rfl, rfl, fun j _ => rfl,
      fun p hp => absurd hp (List.not_mem_nil p)⟩
  | cons q qs ih =>
    rintro w hw hnd hall
    rcases q with ⟨i, s⟩
    obtain ⟨c, hc, hct, hcs⟩ := hall (i, s) (List.mem_cons_self _ _)
    obtain ⟨r, hr⟩ := moveClip_happy env w i tid (s + delta) c hla hc
      (hct ▸ hw) hw
    set c1 : WClip := ⟨tid, s + delta, c.duration_ms, c.inpoint_ms⟩ with hc1
    set w1 : Wrapper := ⟨w.layers, updateAssoc w.clips i c1, w.next_clip_id⟩
      with hw1
    have hql : ∀ p ∈ qs, p.1 ≠ i := by
      intro p hp hEq
      have hmem : p.1 ∈ qs.map Prod.fst := List.mem_map_of_mem Prod.fst hp
      rw [hEq] at hmem
      exact (List.nodup_cons.1 hnd).1 hmem
    have hw1c : w1.clips = updateAssoc w.clips i c1 := rfl
    have hall1 : ∀ p ∈ qs, ∃ cc, List.lookup p.1 w1.clips = some cc ∧
        cc.track_id = tid ∧ cc.start_ms = p.2 := by
      intro p hp
      obtain ⟨cc, hcc, hcc1, hcc2⟩ := hall p (List.mem_cons_of_mem _ hp)
      refine ⟨cc, ?_, hcc1, hcc2⟩
      rw [hw1c, lookup_updateAssoc_ne _ _ _ _ (hql p hp)]
      exact hcc
    obtain ⟨w2, rs, hm, hlay, hun, hmv⟩ := ih w1 hw (List.nodup_cons.1 hnd).2
      hall1
    refine ⟨w2, r :: rs, ?_, hlay, ?_, ?_⟩
    · show moveAll env tid delta w ((i, s) :: qs) = (w2, .ok (r :: rs))
      simp only [moveAll]
      rw [hr]
      dsimp only
      rw [hm]
    · intro j hj
      have hji : i ≠ j := hj (i, s) (List.mem_cons_self _ _)
      rw [hun j fun p hp => hj p (List.mem_cons_of_mem _ hp), hw1c,
        lookup_updateAssoc_ne _ _ _ _ (Ne.symm hji)]
    · rintro p hp cc hcc
      rcases List.mem_cons.1 hp with hEq | hcons
      · have hp1 : p.1 = i := by rw [hEq]
        have hp2 : p.2 = s := by rw [hEq]
        have hci : cc = c := by
          rw [hp1, hc] at hcc
          exact (Option.some.inj hcc).symm
        rw [hp1, hp2, hci]
        rw [hun i fun q hq => hql q hq, hw1c, lookup_updateAssoc_self, hc]
        rfl
      · have hcc1 : List.lookup p.1 w1.clips = some cc := by
          rw [hw1c, lookup_updateAssoc_ne _ _ _ _ (hql p hcons)]
          exact hcc
        exact hmv p hcons cc hcc1

/-- C8: a forward ripple edit in a fully available environment succeeds and
shifts exactly the other same-track clips whose original start is at or
after the moved clip's original end — each by the same positive delta
(so a clip starting exactly at that end is also shifted) — while the moved
clip keeps its duration and lands at `new_start`; clips on other tracks or
ending before the moved clip's original end are untouched. -/
theorem ripple_edit_forward_spec (env : GstEnv) (w : Wrapper) (cid : Int)
    (new_start : Nat) (clip : WClip) (hla : env.layerAddOk = true)
    (hc : List.lookup cid w.clips = some clip)
    (hl : clip.track_id ∈ w.layers)
    (hnd : (w.clips.map Prod.fst).Nodup)
    (hfwd : clip.start_ms < new_start) :
    ∃ w' rs, rippleEdit env w cid new_start = (w', .ok rs) ∧
      List.lookup cid w'.clips =
        some ⟨clip.track_id, new_start, clip.duration_ms, clip.inpoint_ms⟩ ∧
      (∀ i c, (i, c) ∈ w.clips → i ≠ cid →
        (c.track_id = clip.track_id ∧
            clip.start_ms + clip.duration_ms ≤ c.start_ms →
          List.lookup i w'.clips =
            some ⟨c.track_id, c.start_ms + (new_start - clip.start_ms),
              c.duration_ms, c.inpoint_ms⟩) ∧
        (¬ (c.track_id = clip.track_id ∧
            clip.start_ms + clip.duration_ms ≤ c.start_ms) →
          List.lookup i w'.clips = some c)) := by
  have hdelta : ¬ ((new_start : Int) - (clip.start_ms : Int) = 0) := by omega
  have hdpos : (0 : Int) < (new_start : Int) - (clip.start_ms : Int) := by
    omega
  have htonat : ((new_start : Int) - (clip.start_ms : Int)).toNat =
      new_start - clip.start_ms := by omega
  obtain ⟨r1, hr1⟩ := moveClip_happy env w cid clip.track_id new_start clip
    hla hc hl hl
  set c1 : WClip :=
    ⟨clip.track_id, new_start, clip.duration_ms, clip.inpoint_ms⟩ with hc1
  set w1 : Wrapper := ⟨w.layers, updateAssoc w.clips cid c1, w.next_clip_id⟩
    with hw1
  have hw1c : w1.clips = updateAssoc w.clips cid c1 := rfl
  have hw1l : w1.layers = w.layers := rfl
  have hnd1 : (w1.clips.map Prod.fst).Nodup := by
    rw [hw1c, keys_updateAssoc]
    exact hnd
  set pairs : List (Int × Nat) := (w1.clips.filter fun p =>
      p.1 ≠ cid ∧ p.2.track_id = clip.track_id ∧
        clip.start_ms + clip.duration_ms ≤ p.2.start_ms).map
    (fun p => (p.1, p.2.start_ms)) with hpairs
  have hpmem : ∀ p ∈ pairs, ∃ q, q ∈ w1.clips ∧
      (q.1 ≠ cid ∧ q.2.track_id = clip.track_id ∧
        clip.start_ms + clip.duration_ms ≤ q.2.start_ms) ∧
      p = (q.1, q.2.start_ms) := by
    intro p hp
    rw [hpairs] at hp
    obtain ⟨q, hq, hqp⟩ := List.mem_map.1 hp
    obtain ⟨hqm, hqP⟩ := List.mem_filter.1 hq
    exact ⟨q, hqm, of_decide_eq_true hqP, hqp.symm⟩
  have hkeys : pairs.map Prod.fst = (w1.clips.filter fun p =>
      p.1 ≠ cid ∧ p.2.track_id = clip.track_id ∧
        clip.start_ms + clip.duration_ms ≤ p.2.start_ms).map Prod.fst := by
    rw [hpairs, List.map_map]
    rfl
  have hndp : (pairs.map Prod.fst).Nodup := by
    rw [hkeys]
    exact ((List.filter_sublist _).map Prod.fst).nodup hnd1
  have hall : ∀ p ∈ pairs, ∃ c, List.lookup p.1 w1.clips = some c ∧
      c.track_id = clip.track_id ∧ c.start_ms = p.2 := by
    intro p hp
    obtain ⟨q, hqm, hqP, hqp⟩ := hpmem p hp
    refine ⟨q.2, ?_, hqP.2.1, by rw [hqp]⟩
    rw [hqp]
    exact lookup_of_mem_nodup w1.clips q.1 q.2 hnd1 (by simpa using hqm)
  obtain ⟨w2, rs2, hm, hlay, hun, hmv⟩ := moveAll_happy env clip.track_id
    (((new_start : Int) - (clip.start_ms : Int)).toNat) hla pairs w1
    (hw1l ▸ hl) hndp hall
  have hcid_not_pair : ∀ p ∈ pairs, p.1 ≠ cid := by
    intro p hp
    obtain ⟨q, _, hqP, hqp⟩ := hpmem p hp
    rw [hqp]
    exact hqP.1
  refine ⟨w2, r1 :: rs2, ?_, ?_, ?_⟩
  · simp only [rippleEdit, hc]
    rw [if_neg hdelta, if_pos hl, hr1]
    dsimp only
    rw [if_pos hdpos]
    rw [hpairs] at hm
    rw [hm]
  · rw [hun cid hcid_not_pair, hw1c, lookup_updateAssoc_self, hc]
    rfl
  · intro i c hic hne
    have hic1 : (i, c) ∈ w1.clips := by
      rw [hw1c]
      exact (mem_updateAssoc_ne w.clips cid c1 i c hne).2 hic
    have hlookup1 : List.lookup i w1.clips = some c :=
      lookup_of_mem_nodup w1.clips i c hnd1 hic1
    constructor
    · rintro ⟨htrk, hge⟩
      have hfilt : (i, c) ∈ w1.clips.filter fun p =>
          p.1 ≠ cid ∧ p.2.track_id = clip.track_id ∧
            clip.start_ms + clip.duration_ms ≤ p.2.start_ms :=
        List.mem_filter.2 ⟨hic1, decide_eq_true ⟨hne, htrk, hge⟩⟩
      have hip : (i, c.start_ms) ∈ pairs := by
        rw [hpairs]
        exact List.mem_map.2 ⟨(i, c), hfilt, rfl⟩
      have hthis := hmv (i, c.start_ms) hip c hlookup1
      dsimp only at hthis
      rw [htonat] at hthis
      rw [hthis, htrk]
    · intro hnP
      have hinp : ∀ p ∈ pairs, p.1 ≠ i := by
        intro p hp hEq
        obtain ⟨q, hqm, hqP, hqp⟩ := hpmem p hp
        have hq1 : q.1 = i := by
          rw [hqp] at hEq
          exact hEq
        have hqc : q.2 = c := by
          have h1 := lookup_of_mem_nodup w1.clips q.1 q.2 hnd1
            (by simpa using hqm)
          rw [hq1, hlookup1] at h1
          exact (Option.some.inj h1).symm
        refine hnP ⟨?_, ?_⟩
        · rw [← hqc]
          exact hqP.2.1
        · rw [← hqc]
          exact hqP.2.2
      rw [hun i hinp, hw1c, lookup_updateAssoc_ne _ _ _ _ hne]
      exact lookup_of_mem_nodup w.clips i c hnd hic

/-- Instantiation of the C8 theorem on the spec's scenario: moving clip 1
(window `[0, 3000)`) forward by 1000ms on a track whose clip 2 starts
exactly at the moved clip's original end 3000 — the ripple succeeds, clip 1
lands at 1000 keeping its 3000ms duration, and clip 2's shift is also
exactly +1000ms. -/
theorem ripple_edit_forward_spec_witness :
    ∃ w' rs, rippleEdit allOkEnv
        ⟨[0], [(1, ⟨0, 0, 3000, 0⟩), (2, ⟨0, 3000, 2000, 0⟩)], 3⟩ 1 1000 =
        (w', .ok rs) ∧
      List.lookup 1 w'.clips = some ⟨0, 1000, 3000, 0⟩ ∧
      (∀ i c,
        (i, c) ∈ ([(1, ⟨0, 0, 3000, 0⟩), (2, ⟨0, 3000, 2000, 0⟩)] :
          List (Int × WClip)) → i ≠ 1 →
        (c.track_id = (0 : Int) ∧ 0 + 3000 ≤ c.start_ms →
          List.lookup i w'.clips =
            some ⟨c.track_id, c.start_ms + (1000 - 0),
              c.duration_ms, c.inpoint_ms⟩) ∧
        (¬ (c.track_id = (0 : Int) ∧ 0 + 3000 ≤ c.start_ms) →
          List.lookup i w'.clips = some c)) :=
  ripple_edit_forward_spec allOkEnv
    ⟨[0], [(1, ⟨0, 0, 3000, 0⟩), (2, ⟨0, 3000, 2000, 0⟩)], 3⟩ 1 1000
    ⟨0, 0, 3000, 0⟩ rfl rfl (by decide) (by decide) (by decide)

end FlipEdit
